import Mathlib

/-!
Verification of the go-wit entity client (`entities.go`) against its
natural-language specification.

The repository is a thin HTTP client: each operation serializes a value,
performs one HTTP round trip through a four-verb transport, inspects the
status code (or not), and deserializes the body.  We embed the code
shallowly:

* Go structs become Lean structures with the source field names.
* JSON response bodies are modelled as a JSON syntax tree (`Json`) wrapped
  in `Body`, with `Body.malformed` standing for byte strings that are not
  well-formed JSON text; request bodies are plain strings (byte sequences).
* The transport collaborator (`get`/`post`/`put`/`delete`, defined outside
  `src/`) is modelled from the spec as a record of four response oracles;
  every operation returns, besides its Go results, the list of requests it
  issued so that path-construction claims can be stated.
* `json.Marshal` / `json.Unmarshal` of `encoding/json` are embedded for the
  concrete types the client uses (struct tags, case-insensitive key
  fallback, `null` handling, last-duplicate-wins).
* `url.QueryEscape` of `net/url` is embedded byte-for-byte.
-/

/-- A JSON document, used to model well-formed response bodies. -/
inductive Json where
  | null
  | bool (b : Bool)
  | num (n : Int)
  | str (s : String)
  | arr (elems : List Json)
  | obj (fields : List (String × Json))

/-- A raw HTTP response body: either well-formed JSON text (represented by
its syntax tree) or a byte string that is not valid JSON. -/
inductive Body where
  | json (j : Json)
  | malformed (raw : String)

/-- Embeds the Go struct `EntityValue` (entities.go lines 20-23) with its
source field names. -/
structure EntityValue where
  Value : String
  Expressions : List String
deriving DecidableEq

/-- Embeds the Go struct `Entity` (entities.go lines 12-17) with its source
field names. -/
structure Entity where
  Builtin : Bool
  Doc : String
  Id : String
  Values : List EntityValue
deriving DecidableEq

/-- Embeds `type Entities []string` (entities.go line 26). -/
abbrev Entities := List String

/-- HTTP method of an issued request. -/
inductive Method where
  | GET
  | POST
  | PUT
  | DELETE
deriving DecidableEq

/-- A request issued through the transport: method, the full resolved URL,
and the raw byte body for POST/PUT. -/
structure Request where
  method : Method
  url : String
  reqBody : Option String
deriving DecidableEq

/-- A transport response: raw body, HTTP status code, and the transport
error (`none` models Go's `nil` error). -/
structure TResp where
  body : Body
  status : Int
  err : Option String

/-- Modelled from the spec: the four-verb transport collaborator of section 6
("four functions, one per HTTP verb, each taking a target URL (and, for
POST/PUT, a raw byte body) and returning (bodyBytes, statusCode, error)").
The helpers `get`/`post`/`put`/`delete` live outside `src/`; per the call
sites in entities.go, `delete` takes a base URL and a resource suffix and
issues the DELETE at their concatenation. -/
structure Transport where
  get : String → TResp
  post : String → String → TResp
  put : String → String → TResp
  delete : String → String → TResp

/-- Modelled from the spec: the client object holds only the configured API
base URL (section 2, "a base URL supplied at client construction"); the
struct itself is defined outside `src/` but its `ApiBase` field is used by
every operation in entities.go. -/
structure WitClient where
  ApiBase : String

/-- Result of one client operation: the requests it issued through the
transport, the Go return value (`none` models a `nil` pointer/slice), and
the Go error return. -/
structure OpResult (α : Type) where
  requests : List Request
  value : Option α
  err : Option String

/-! ## net/url.QueryEscape, embedded byte-for-byte -/

/-- The UTF-8 encoding of one character, as byte values. -/
def utf8Bytes (c : Char) : List Nat :=
  let n := c.toNat
  if n < 0x80 then [n]
  else if n < 0x800 then [0xC0 + n / 0x40, 0x80 + n % 0x40]
  else if n < 0x10000 then
    [0xE0 + n / 0x1000, 0x80 + (n / 0x40) % 0x40, 0x80 + n % 0x40]
  else
    [0xF0 + n / 0x40000, 0x80 + (n / 0x1000) % 0x40,
     0x80 + (n / 0x40) % 0x40, 0x80 + n % 0x40]

/-- Uppercase hexadecimal digit, as used by Go's `net/url` escape table. -/
def hexDigitUpper (n : Nat) : Char :=
  if n < 10 then Char.ofNat (48 + n) else Char.ofNat (55 + n)

/-- Whether a byte is an ASCII letter or digit. -/
def isAlnumByte (b : Nat) : Bool :=
  (48 ≤ b && b ≤ 57) || (65 ≤ b && b ≤ 90) || (97 ≤ b && b ≤ 122)

/-- Embeds `shouldEscape(c, encodeQueryComponent)` of net/url: every byte
escapes except ASCII alphanumerics and `-` `_` `.` `~`. -/
def shouldEscapeQueryByte (b : Nat) : Bool :=
  !(isAlnumByte b || b = 45 || b = 95 || b = 46 || b = 126)

/-- Embeds `url.QueryEscape` of net/url: per byte of the UTF-8 encoding,
space becomes `+`, bytes that must escape become `%XX` with uppercase hex,
all other bytes pass through. -/
def queryEscape (s : String) : String :=
  String.mk ((s.data.flatMap utf8Bytes).flatMap fun b =>
    if b = 32 then ['+']
    else if shouldEscapeQueryByte b then
      ['%', hexDigitUpper (b / 16), hexDigitUpper (b % 16)]
    else [Char.ofNat b])

/-- Modelled from the spec: the "percent-encoding" the claim refers to
(RFC 3986): every byte of the UTF-8 encoding outside the unreserved set
(ASCII alphanumerics and `-` `_` `.` `~`) is written `%XX` with uppercase
hex; in particular the space byte is written `%20`, never `+`. -/
def percentEncode (s : String) : String :=
  String.mk ((s.data.flatMap utf8Bytes).flatMap fun b =>
    if shouldEscapeQueryByte b then
      ['%', hexDigitUpper (b / 16), hexDigitUpper (b % 16)]
    else [Char.ofNat b])

/-! ## encoding/json, embedded for the client's concrete types

`json.Unmarshal` into the client's Go types: the target starts at its zero
value; a JSON `null` leaves the current value unchanged; an object field is
matched against a struct field by exact tag/field-name match first, then by
an ASCII-case-insensitive fallback; unknown keys are ignored; duplicate
keys are applied left to right so the last one wins; a value of the wrong
JSON kind is an unmarshalling error. -/

/-- Decoding one JSON value into a Go `string` (zero value `""`). -/
def decodeStringJson (old : String) : Json → Except String String
  | Json.str s => Except.ok s
  | Json.null => Except.ok old
  | _ => Except.error "json: cannot unmarshal value into Go value of type string"

/-- Decoding a JSON array elementwise into a Go `[]string`. -/
def decodeStringList : List Json → Except String (List String)
  | [] => Except.ok []
  | j :: js =>
    match decodeStringJson "" j, decodeStringList js with
    | Except.ok s, Except.ok ss => Except.ok (s :: ss)
    | Except.error e, _ => Except.error e
    | _, Except.error e => Except.error e

/-- `json.Unmarshal` of a response body into `Entities` (a `[]string`):
the body must be JSON text whose top level is an array of strings (or
`null`, which leaves the zero slice). -/
def unmarshalEntities : Body → Except String Entities
  | Body.malformed _ => Except.error "invalid character in JSON text"
  | Body.json Json.null => Except.ok []
  | Body.json (Json.arr js) => decodeStringList js
  | Body.json _ =>
    Except.error "json: cannot unmarshal value into Go value of type wit.Entities"

/-- Embeds `parseEntities` (entities.go lines 144-151): unmarshal into a
fresh `Entities`; return `(nil, err)` on error and `(entities, nil)` on
success. -/
def parseEntities (data : Body) : Option Entities × Option String :=
  match unmarshalEntities data with
  | Except.error e => (none, some e)
  | Except.ok entities => (some entities, none)

/-- ASCII lower-casing of one character, used for `encoding/json`'s
case-insensitive field-name fallback (Go folds with `strings.EqualFold`;
all field names and tags of this client are ASCII, where the fold is plain
ASCII lower-casing). -/
def asciiLowerChar (c : Char) : Char :=
  if 65 ≤ c.toNat ∧ c.toNat ≤ 90 then Char.ofNat (c.toNat + 32) else c

/-- ASCII lower-casing of a key string. -/
def asciiLower (s : String) : String :=
  String.mk (s.data.map asciiLowerChar)

/-- The zero value of the Go struct `EntityValue`. -/
def zeroEntityValue : EntityValue := ⟨"", []⟩

/-- The zero value of the Go struct `Entity`. -/
def zeroEntity : Entity := ⟨false, "", "", []⟩

/-- Applying one JSON object member to an `EntityValue` being decoded:
keys match the tags `value` and `expressions` (exact first, then
ASCII-case-insensitive); unknown keys are ignored. -/
def applyEntityValueField (acc : EntityValue) (key : String) (j : Json) :
    Except String EntityValue :=
  if key = "value" ∨ asciiLower key = "value" then
    match j with
    | Json.null => Except.ok acc
    | Json.str s => Except.ok { acc with Value := s }
    | _ => Except.error "json: cannot unmarshal value into Go struct field EntityValue.value of type string"
  else if key = "expressions" ∨ asciiLower key = "expressions" then
    match j with
    | Json.null => Except.ok acc
    | Json.arr js =>
      match decodeStringList js with
      | Except.ok ss => Except.ok { acc with Expressions := ss }
      | Except.error e => Except.error e
    | _ => Except.error "json: cannot unmarshal value into Go struct field EntityValue.expressions of type []string"
  else Except.ok acc

/-- Folding the members of a JSON object over a struct value being decoded,
left to right (so a duplicate key's last occurrence wins, as in Go). -/
def decodeFields {α : Type} (apply : α → String → Json → Except String α) :
    α → List (String × Json) → Except String α
  | acc, [] => Except.ok acc
  | acc, (k, j) :: rest =>
    match apply acc k j with
    | Except.ok acc2 => decodeFields apply acc2 rest
    | Except.error e => Except.error e

/-- Decoding one JSON value into an `EntityValue` struct. -/
def decodeEntityValueJson : Json → Except String EntityValue
  | Json.null => Except.ok zeroEntityValue
  | Json.obj fields => decodeFields applyEntityValueField zeroEntityValue fields
  | _ => Except.error "json: cannot unmarshal value into Go value of type wit.EntityValue"

/-- Decoding a JSON array elementwise into a `[]EntityValue`. -/
def decodeEntityValues : List Json → Except String (List EntityValue)
  | [] => Except.ok []
  | j :: js =>
    match decodeEntityValueJson j, decodeEntityValues js with
    | Except.ok v, Except.ok vs => Except.ok (v :: vs)
    | Except.error e, _ => Except.error e
    | _, Except.error e => Except.error e

/-- Applying one JSON object member to an `Entity` being decoded: keys
match the tags `builtin`, `doc`, `id` and the untagged field name `Values`
(exact first, then ASCII-case-insensitive); unknown keys are ignored. -/
def applyEntityField (acc : Entity) (key : String) (j : Json) :
    Except String Entity :=
  if key = "builtin" ∨ asciiLower key = "builtin" then
    match j with
    | Json.null => Except.ok acc
    | Json.bool b => Except.ok { acc with Builtin := b }
    | _ => Except.error "json: cannot unmarshal value into Go struct field Entity.builtin of type bool"
  else if key = "doc" ∨ asciiLower key = "doc" then
    match j with
    | Json.null => Except.ok acc
    | Json.str s => Except.ok { acc with Doc := s }
    | _ => Except.error "json: cannot unmarshal value into Go struct field Entity.doc of type string"
  else if key = "id" ∨ asciiLower key = "id" then
    match j with
    | Json.null => Except.ok acc
    | Json.str s => Except.ok { acc with Id := s }
    | _ => Except.error "json: cannot unmarshal value into Go struct field Entity.id of type string"
  else if key = "Values" ∨ asciiLower key = "values" then
    match j with
    | Json.null => Except.ok acc
    | Json.arr js =>
      match decodeEntityValues js with
      | Except.ok vs => Except.ok { acc with Values := vs }
      | Except.error e => Except.error e
    | _ => Except.error "json: cannot unmarshal value into Go struct field Entity.Values of type []wit.EntityValue"
  else Except.ok acc

/-- Decoding one JSON value into an `Entity` struct. -/
def decodeEntityJson : Json → Except String Entity
  | Json.null => Except.ok zeroEntity
  | Json.obj fields => decodeFields applyEntityField zeroEntity fields
  | _ => Except.error "json: cannot unmarshal value into Go value of type wit.Entity"

/-- `json.Unmarshal` of a response body into an `Entity`. -/
def unmarshalEntity : Body → Except String Entity
  | Body.malformed _ => Except.error "invalid character in JSON text"
  | Body.json j => decodeEntityJson j

/-- Embeds `parseEntity` (entities.go lines 154-161): unmarshal into a
fresh `Entity`; return `(nil, err)` on error and `(entity, nil)` on
success. -/
def parseEntity (data : Body) : Option Entity × Option String :=
  match unmarshalEntity data with
  | Except.error e => (none, some e)
  | Except.ok entity => (some entity, none)

/-! ### json.Marshal for the client's types

`json.Marshal` of an `Entity` emits the keys `builtin`, `doc`, `id` (from
the struct tags) and `Values` (the untagged field's name), in declaration
order; an `EntityValue` emits `value` and `expressions`.  For these types
(bools, strings and slices of such) `json.Marshal` never returns an error,
so the embedded marshal step carries `none` as its error component, with
the pair shape kept because the Go call sites receive a `(data, err)`
pair. -/

/-- The JSON document `json.Marshal` produces for an `EntityValue`. -/
def entityValueToJson (v : EntityValue) : Json :=
  Json.obj [("value", Json.str v.Value),
            ("expressions", Json.arr (v.Expressions.map Json.str))]

/-- The JSON document `json.Marshal` produces for an `Entity`. -/
def entityToJson (e : Entity) : Json :=
  Json.obj [("builtin", Json.bool e.Builtin),
            ("doc", Json.str e.Doc),
            ("id", Json.str e.Id),
            ("Values", Json.arr (e.Values.map entityValueToJson))]

/-- One character of a JSON string rendered with Go's `encoding/json`
escaping (quote, backslash, control characters, and HTML-unsafe characters
escaped; lowercase hex in numeric escapes). -/
def goEscapeChar (c : Char) : List Char :=
  let hexLower : Nat → Char := fun n =>
    if n < 10 then Char.ofNat (48 + n) else Char.ofNat (87 + n)
  if c = '"' then ['\\', '"']
  else if c = '\\' then ['\\', '\\']
  else if c = '\n' then ['\\', 'n']
  else if c = '\r' then ['\\', 'r']
  else if c = '\t' then ['\\', 't']
  else if c.toNat < 32 then
    ['\\', 'u', '0', '0', hexLower (c.toNat / 16), hexLower (c.toNat % 16)]
  else if c = '<' then ['\\', 'u', '0', '0', '3', 'c']
  else if c = '>' then ['\\', 'u', '0', '0', '3', 'e']
  else if c = '&' then ['\\', 'u', '0', '0', '2', '6']
  else [c]

/-- A JSON string literal as rendered by `encoding/json`. -/
def renderString (s : String) : String :=
  String.mk ('"' :: (s.data.flatMap goEscapeChar ++ ['"']))

/-- Comma-separated concatenation, used for JSON array/object bodies. -/
def commaJoin : List String → String
  | [] => ""
  | [s] => s
  | s :: rest => s ++ "," ++ commaJoin rest

/-- A JSON array of strings as rendered by `encoding/json`. -/
def renderStringArray (l : List String) : String :=
  "[" ++ commaJoin (l.map renderString) ++ "]"

/-- The bytes `json.Marshal` produces for an `EntityValue`. -/
def renderEntityValue (v : EntityValue) : String :=
  "\x7b\"value\":" ++ renderString v.Value ++
    ",\"expressions\":" ++ renderStringArray v.Expressions ++ "\x7d"

/-- The bytes `json.Marshal` produces for an `Entity`. -/
def renderEntity (e : Entity) : String :=
  "\x7b\"builtin\":" ++ (if e.Builtin then "true" else "false") ++
    ",\"doc\":" ++ renderString e.Doc ++
    ",\"id\":" ++ renderString e.Id ++
    ",\"Values\":[" ++ commaJoin (e.Values.map renderEntityValue) ++ "]\x7d"

/-- The `(data, err)` pair returned by `json.Marshal(entity)`; the error is
always `nil` for this type. -/
def jsonMarshalEntity (entity : Entity) : String × Option String :=
  (renderEntity entity, none)

/-- The `(data, err)` pair returned by `json.Marshal(entityValue)`; the
error is always `nil` for this type. -/
def jsonMarshalEntityValue (v : EntityValue) : String × Option String :=
  (renderEntityValue v, none)

/-! ## The client operations (entities.go lines 31-141)

Each definition mirrors the Go method body line by line.  The Go pattern

  data, err := json.Marshal(x)
  result, statusCode, err := post(url, data)

re-assigns `err` at the `post` call, so the marshal error is discarded
without ever being read; the embedding keeps the discarded binding under a
`_err` name so the data flow stays visible.  To keep path-construction
claims statable, each operation also reports the request it issued. -/

/-- Embeds `CreateEntity` (entities.go lines 31-38), generic over the
`json.Marshal` step so that the fate of a marshal error is statable.  The
second component of the result is the final value of the pointed-to
`entity`, which the body never writes to. -/
def createEntityCore (marshal : Entity → String × Option String)
    (client : WitClient) (t : Transport) (entity : Entity) :
    OpResult Body × Entity :=
  let (data, _errMarshal) := marshal entity
  let url := client.ApiBase ++ "/entities"
  let r := t.post url data
  let req : Request := ⟨Method.POST, url, some data⟩
  if r.status ≠ 200 then
    (⟨[req], none, r.err⟩, entity)
  else
    (⟨[req], some r.body, none⟩, entity)

/-- Embeds `UpdateEntity` (entities.go lines 134-141), generic over the
`json.Marshal` step; the URL appends `entity.Id`, and the second component
is the final value of the pointed-to `entity`. -/
def updateEntityCore (marshal : Entity → String × Option String)
    (client : WitClient) (t : Transport) (entity : Entity) :
    OpResult Body × Entity :=
  let (data, _errMarshal) := marshal entity
  let url := client.ApiBase ++ "/entities/" ++ entity.Id
  let r := t.put url data
  let req : Request := ⟨Method.PUT, url, some data⟩
  if r.status ≠ 200 then
    (⟨[req], none, r.err⟩, entity)
  else
    (⟨[req], some r.body, none⟩, entity)

/-- `CreateEntity` with the actual `json.Marshal` step. -/
def WitClient.CreateEntity (client : WitClient) (t : Transport)
    (entity : Entity) : OpResult Body × Entity :=
  createEntityCore jsonMarshalEntity client t entity

/-- Embeds `CreateEntityValue` (entities.go lines 43-55): marshal the
value, POST it to `/entities/{id}/values`, fail on non-200, then unmarshal
the body into a fresh `Entity`. -/
def WitClient.CreateEntityValue (client : WitClient) (t : Transport)
    (id : String) (entityValue : EntityValue) : OpResult Entity :=
  let (data, _errMarshal) := jsonMarshalEntityValue entityValue
  let url := client.ApiBase ++ "/entities/" ++ id ++ "/values"
  let r := t.post url data
  let req : Request := ⟨Method.POST, url, some data⟩
  if r.status ≠ 200 then ⟨[req], none, r.err⟩
  else
    match unmarshalEntity r.body with
    | Except.error e => ⟨[req], none, some e⟩
    | Except.ok entity => ⟨[req], some entity, none⟩

/-- Embeds `CreateEntityValueExp` (entities.go lines 60-71): POST the raw
expression bytes (`[]byte(exp)`) to `/entities/{id}/values/{value}/expressions`,
fail on non-200, then unmarshal the body into a fresh `Entity`. -/
def WitClient.CreateEntityValueExp (client : WitClient) (t : Transport)
    (id value exp : String) : OpResult Entity :=
  let url := client.ApiBase ++ "/entities/" ++ id ++ "/values/" ++ value
      ++ "/expressions"
  let r := t.post url exp
  let req : Request := ⟨Method.POST, url, some exp⟩
  if r.status ≠ 200 then ⟨[req], none, r.err⟩
  else
    match unmarshalEntity r.body with
    | Except.error e => ⟨[req], none, some e⟩
    | Except.ok entity => ⟨[req], some entity, none⟩

/-- Embeds `DeleteEntity` (entities.go lines 76-82): `delete(base ++
"/entities/", id)`; fail on non-200, else return the raw body. -/
def WitClient.DeleteEntity (client : WitClient) (t : Transport)
    (id : String) : OpResult Body :=
  let url := client.ApiBase ++ "/entities/"
  let r := t.delete url id
  let req : Request := ⟨Method.DELETE, url ++ id, none⟩
  if r.status ≠ 200 then ⟨[req], none, r.err⟩
  else ⟨[req], some r.body, none⟩

/-- Embeds `DeleteEntityValue` (entities.go lines 87-93): `delete(base ++
"/entities/", id ++ "/values/" ++ value)`. -/
def WitClient.DeleteEntityValue (client : WitClient) (t : Transport)
    (id value : String) : OpResult Body :=
  let url := client.ApiBase ++ "/entities/"
  let resource := id ++ "/values/" ++ value
  let r := t.delete url resource
  let req : Request := ⟨Method.DELETE, url ++ resource, none⟩
  if r.status ≠ 200 then ⟨[req], none, r.err⟩
  else ⟨[req], some r.body, none⟩

/-- Embeds `DeleteEntityValueExp` (entities.go lines 98-105): the resource
is `id ++ "/values/" ++ value ++ "/expression/" ++ url.QueryEscape(exp)`
(singular `expression` segment), handed to the two-argument `delete`. -/
def WitClient.DeleteEntityValueExp (client : WitClient) (t : Transport)
    (id value exp : String) : OpResult Body :=
  let url := client.ApiBase ++ "/entities/"
  let data := id ++ "/values/" ++ value ++ "/expression/" ++ queryEscape exp
  let r := t.delete url data
  let req : Request := ⟨Method.DELETE, url ++ data, none⟩
  if r.status ≠ 200 then ⟨[req], none, r.err⟩
  else ⟨[req], some r.body, none⟩

/-- `UpdateEntity` with the actual `json.Marshal` step. -/
def WitClient.UpdateEntity (client : WitClient) (t : Transport)
    (entity : Entity) : OpResult Body × Entity :=
  updateEntityCore jsonMarshalEntity client t entity

/-- Embeds `Entities` (entities.go lines 110-117): GET `/entities`,
discard the status code, return the transport error if non-nil, otherwise
return `parseEntities`' value with the parse error discarded and a nil
error. -/
def WitClient.Entities (client : WitClient) (t : Transport) :
    OpResult Entities :=
  let url := client.ApiBase ++ "/entities"
  let r := t.get url
  let req : Request := ⟨Method.GET, url, none⟩
  match r.err with
  | some e => ⟨[req], none, some e⟩
  | none =>
    let (entities, _errParse) := parseEntities r.body
    ⟨[req], entities, none⟩

/-- Embeds `Entity` (entities.go lines 122-129): GET `/entities/{id}`,
discard the status code, return the transport error if non-nil, otherwise
return `parseEntity`'s value with the parse error discarded and a nil
error. -/
def WitClient.Entity (client : WitClient) (t : Transport) (id : String) :
    OpResult Entity :=
  let url := client.ApiBase ++ "/entities/" ++ id
  let r := t.get url
  let req : Request := ⟨Method.GET, url, none⟩
  match r.err with
  | some e => ⟨[req], none, some e⟩
  | none =>
    let (entity, _errParse) := parseEntity r.body
    ⟨[req], entity, none⟩

/-! ## Helper lemmas -/

/-- Decoding a rendered array of strings recovers the strings. -/
lemma decodeStringList_map (l : List String) :
    decodeStringList (l.map Json.str) = Except.ok l := by
  induction l with
  | nil => rfl
  | cons s t ih => simp [decodeStringList, decodeStringJson, ih]

/-- The key `value` hits the `value` tag of `EntityValue`. -/
lemma applyEVF_value (acc : EntityValue) (s : String) :
    applyEntityValueField acc "value" (Json.str s) =
      Except.ok { acc with Value := s } := rfl

/-- The key `expressions` hits the `expressions` tag of `EntityValue`. -/
lemma applyEVF_expressions (acc : EntityValue) (js : List Json) :
    applyEntityValueField acc "expressions" (Json.arr js) =
      match decodeStringList js with
      | Except.ok ss => Except.ok { acc with Expressions := ss }
      | Except.error e => Except.error e := rfl

/-- Decoding the document marshalled from an `EntityValue` recovers it. -/
lemma decodeEntityValueJson_roundtrip (v : EntityValue) :
    decodeEntityValueJson (entityValueToJson v) = Except.ok v := by
  cases v with
  | mk val exps =>
    simp [entityValueToJson, decodeEntityValueJson, decodeFields,
      applyEVF_value, applyEVF_expressions, decodeStringList_map,
      zeroEntityValue]

/-- Elementwise round trip for a marshalled `[]EntityValue`. -/
lemma decodeEntityValues_map (vs : List EntityValue) :
    decodeEntityValues (vs.map entityValueToJson) = Except.ok vs := by
  induction vs with
  | nil => rfl
  | cons v rest ih =>
    simp [decodeEntityValues, decodeEntityValueJson_roundtrip, ih]

/-- The key `builtin` hits the `builtin` tag of `Entity`. -/
lemma applyEF_builtin (acc : Entity) (b : Bool) :
    applyEntityField acc "builtin" (Json.bool b) =
      Except.ok { acc with Builtin := b } := rfl

/-- The key `doc` hits the `doc` tag of `Entity`. -/
lemma applyEF_doc (acc : Entity) (s : String) :
    applyEntityField acc "doc" (Json.str s) =
      Except.ok { acc with Doc := s } := rfl

/-- The key `id` hits the `id` tag of `Entity`. -/
lemma applyEF_id (acc : Entity) (s : String) :
    applyEntityField acc "id" (Json.str s) =
      Except.ok { acc with Id := s } := rfl

/-- The key `Values` hits the untagged `Values` field of `Entity`. -/
lemma applyEF_values (acc : Entity) (js : List Json) :
    applyEntityField acc "Values" (Json.arr js) =
      match decodeEntityValues js with
      | Except.ok vs => Except.ok { acc with Values := vs }
      | Except.error e => Except.error e := rfl

/-- The single request `CreateEntityValueExp` issues. -/
lemma CreateEntityValueExp_requests (client : WitClient) (t : Transport)
    (id value exp : String) :
    (WitClient.CreateEntityValueExp client t id value exp).requests =
      [⟨Method.POST, client.ApiBase ++ "/entities/" ++ id ++ "/values/"
        ++ value ++ "/expressions", some exp⟩] := by
  simp only [WitClient.CreateEntityValueExp]
  split
  · rfl
  · split <;> rfl

/-- The single request `DeleteEntity` issues. -/
lemma DeleteEntity_requests (client : WitClient) (t : Transport)
    (id : String) :
    (WitClient.DeleteEntity client t id).requests =
      [⟨Method.DELETE, client.ApiBase ++ "/entities/" ++ id, none⟩] := by
  simp only [WitClient.DeleteEntity]
  split <;> rfl

/-- The single request `DeleteEntityValue` issues. -/
lemma DeleteEntityValue_requests (client : WitClient) (t : Transport)
    (id value : String) :
    (WitClient.DeleteEntityValue client t id value).requests =
      [⟨Method.DELETE, client.ApiBase ++ "/entities/" ++ id ++ "/values/"
        ++ value, none⟩] := by
  simp only [WitClient.DeleteEntityValue]
  split <;> simp [String.append_assoc]

/-- The single request `DeleteEntityValueExp` issues: the expression is
escaped with `url.QueryEscape` and appended after the singular
`expression/` segment. -/
lemma DeleteEntityValueExp_requests (client : WitClient) (t : Transport)
    (id value exp : String) :
    (WitClient.DeleteEntityValueExp client t id value exp).requests =
      [⟨Method.DELETE, client.ApiBase ++ "/entities/" ++ id ++ "/values/"
        ++ value ++ "/expression/" ++ queryEscape exp, none⟩] := by
  simp only [WitClient.DeleteEntityValueExp]
  split <;> simp [String.append_assoc]

/-- The single request `CreateEntityValue` issues. -/
lemma CreateEntityValue_requests (client : WitClient) (t : Transport)
    (id : String) (v : EntityValue) :
    (WitClient.CreateEntityValue client t id v).requests =
      [⟨Method.POST, client.ApiBase ++ "/entities/" ++ id ++ "/values",
        some (renderEntityValue v)⟩] := by
  simp only [WitClient.CreateEntityValue, jsonMarshalEntityValue]
  split
  · rfl
  · split <;> rfl

/-! ## Concrete fixtures for witnesses and counterexamples -/

/-- A sample entity value. -/
def evParis : EntityValue := ⟨"Paris", ["City of Light"]⟩

/-- A sample entity. -/
def entFav : Entity := ⟨false, "a doc", "favorite_city", [evParis]⟩

/-- A transport whose every response has status 500 and a nil error. -/
def t500 : Transport where
  get := fun _ => ⟨Body.malformed "", 500, none⟩
  post := fun _ _ => ⟨Body.malformed "", 500, none⟩
  put := fun _ _ => ⟨Body.malformed "", 500, none⟩
  delete := fun _ _ => ⟨Body.malformed "", 500, none⟩

/-- A transport whose GET responds 200 with a nil error and a body that is
not valid JSON text. -/
def tMalformed : Transport where
  get := fun _ => ⟨Body.malformed "not json", 200, none⟩
  post := fun _ _ => ⟨Body.malformed "", 200, none⟩
  put := fun _ _ => ⟨Body.malformed "", 200, none⟩
  delete := fun _ _ => ⟨Body.malformed "", 200, none⟩

/-- A transport whose GET responds 200 with a nil error and a well-formed
JSON body of the wrong shape (a bare number). -/
def tBadShape : Transport where
  get := fun _ => ⟨Body.json (Json.num 7), 200, none⟩
  post := fun _ _ => ⟨Body.json (Json.num 7), 200, none⟩
  put := fun _ _ => ⟨Body.json (Json.num 7), 200, none⟩
  delete := fun _ _ => ⟨Body.json (Json.num 7), 200, none⟩

/-- A transport whose GET responds with status 500, a nil error, and a
well-formed JSON array body. -/
def tStatus500Array : Transport where
  get := fun _ => ⟨Body.json (Json.arr [Json.str "wit$temperature"]), 500, none⟩
  post := fun _ _ => ⟨Body.malformed "", 500, none⟩
  put := fun _ _ => ⟨Body.malformed "", 500, none⟩
  delete := fun _ _ => ⟨Body.malformed "", 500, none⟩

/-- A transport whose GET responds 200 with a nil error and the body
`["wit$temperature","favorite_city"]`. -/
def tTwoEntities : Transport where
  get := fun _ =>
    ⟨Body.json (Json.arr [Json.str "wit$temperature", Json.str "favorite_city"]),
      200, none⟩
  post := fun _ _ => ⟨Body.malformed "", 200, none⟩
  put := fun _ _ => ⟨Body.malformed "", 200, none⟩
  delete := fun _ _ => ⟨Body.malformed "", 200, none⟩

/-- A marshal step that fails with a serialization error, standing for the
general (fallible) contract of `json.Marshal`. -/
def marshalBoom : Entity → String × Option String :=
  fun _ => ("", some "serialization failed")

/-- A marshal step producing the same bytes as `marshalBoom` but no error. -/
def marshalSilent : Entity → String × Option String :=
  fun _ => ("", none)

/-! ## Claims -/

/-- C1, counterexample.  The claim says every client operation treats a
non-200 status as failure and never returns a domain object built from the
response body.  `Entities` (and likewise `Entity`) discards the status code
(`result, _, err := get(...)`): against a transport whose GET responds with
status 500, a nil error and the body `["wit$temperature"]`, it returns a
populated entity list. -/
theorem C1_counterexample :
    (tStatus500Array.get ("" ++ "/entities")).status ≠ 200 ∧
    (WitClient.Entities ⟨""⟩ tStatus500Array).value = some ["wit$temperature"] := by
  decide

/-- C1, amended.  The seven POST/PUT/DELETE-based operations (CreateEntity,
CreateEntityValue, CreateEntityValueExp, DeleteEntity, DeleteEntityValue,
DeleteEntityValueExp, UpdateEntity) do fail with a nil result whenever the
transport's status code is not 200; the two GET-based operations are the
exception recorded by the counterexample. -/
theorem C1_amended (client : WitClient) (t : Transport) (e : Entity)
    (id value exp : String) (ev : EntityValue)
    (hpost : ∀ u b, (t.post u b).status ≠ 200)
    (hput : ∀ u b, (t.put u b).status ≠ 200)
    (hdel : ∀ u r, (t.delete u r).status ≠ 200) :
    (WitClient.CreateEntity client t e).1.value = none ∧
    (WitClient.CreateEntityValue client t id ev).value = none ∧
    (WitClient.CreateEntityValueExp client t id value exp).value = none ∧
    (WitClient.DeleteEntity client t id).value = none ∧
    (WitClient.DeleteEntityValue client t id value).value = none ∧
    (WitClient.DeleteEntityValueExp client t id value exp).value = none ∧
    (WitClient.UpdateEntity client t e).1.value = none := by
  refine ⟨?_, ?_, ?_, ?_, ?_, ?_, ?_⟩
  · simp only [WitClient.CreateEntity, createEntityCore, jsonMarshalEntity]
    split
    · rfl
    · next h => exact (h (hpost _ _)).elim
  · simp only [WitClient.CreateEntityValue, jsonMarshalEntityValue]
    split
    · rfl
    · next h => exact (h (hpost _ _)).elim
  · simp only [WitClient.CreateEntityValueExp]
    split
    · rfl
    · next h => exact (h (hpost _ _)).elim
  · simp only [WitClient.DeleteEntity]
    split
    · rfl
    · next h => exact (h (hdel _ _)).elim
  · simp only [WitClient.DeleteEntityValue]
    split
    · rfl
    · next h => exact (h (hdel _ _)).elim
  · simp only [WitClient.DeleteEntityValueExp]
    split
    · rfl
    · next h => exact (h (hdel _ _)).elim
  · simp only [WitClient.UpdateEntity, updateEntityCore, jsonMarshalEntity]
    split
    · rfl
    · next h => exact (h (hput _ _)).elim

/-- C1, witness for the amended theorem at a concrete all-500 transport. -/
theorem C1_amended_witness :
    (WitClient.CreateEntity ⟨"base"⟩ t500 entFav).1.value = none ∧
    (WitClient.CreateEntityValue ⟨"base"⟩ t500 "favorite_city" evParis).value = none ∧
    (WitClient.CreateEntityValueExp ⟨"base"⟩ t500 "favorite_city" "Paris" "Paella").value = none ∧
    (WitClient.DeleteEntity ⟨"base"⟩ t500 "favorite_city").value = none ∧
    (WitClient.DeleteEntityValue ⟨"base"⟩ t500 "favorite_city" "Paris").value = none ∧
    (WitClient.DeleteEntityValueExp ⟨"base"⟩ t500 "favorite_city" "Paris" "Paella").value = none ∧
    (WitClient.UpdateEntity ⟨"base"⟩ t500 entFav).1.value = none :=
  C1_amended ⟨"base"⟩ t500 entFav "favorite_city" "Paris" "Paella" evParis
    (fun _ _ => by show (500 : Int) ≠ 200; decide)
    (fun _ _ => by show (500 : Int) ≠ 200; decide)
    (fun _ _ => by show (500 : Int) ≠ 200; decide)

/-- C2.  The claim says a response body that does not parse makes
`Entities` and `Entity` return a non-nil error.  The code computes the
parse error and then discards it (`entities, _ := parseEntities(result)`),
returning a nil value together with a nil error: evaluated here on a GET
response with status 200, nil transport error and the unparseable body
`not json`. -/
theorem C2_code_eval :
    (WitClient.Entities ⟨"base"⟩ tMalformed).value = none ∧
    (WitClient.Entities ⟨"base"⟩ tMalformed).err = none ∧
    (WitClient.Entity ⟨"base"⟩ tMalformed "favorite_city").value = none ∧
    (WitClient.Entity ⟨"base"⟩ tMalformed "favorite_city").err = none := by
  decide

/-- C3, counterexample.  The claim says a failing marshal step makes
CreateEntity and UpdateEntity return that serialization error.  In the
code `result, statusCode, err := post(...)` re-assigns `err`, so the
marshal error is discarded: with a marshal step failing with
`serialization failed` and a transport answering status 500 with a nil
error, both operations return a nil result and a nil error — not the
serialization error. -/
theorem C3_counterexample :
    (marshalBoom entFav).2 = some "serialization failed" ∧
    (createEntityCore marshalBoom ⟨"base"⟩ t500 entFav).1.value = none ∧
    (createEntityCore marshalBoom ⟨"base"⟩ t500 entFav).1.err = none ∧
    (updateEntityCore marshalBoom ⟨"base"⟩ t500 entFav).1.value = none ∧
    (updateEntityCore marshalBoom ⟨"base"⟩ t500 entFav).1.err = none :=
  ⟨rfl, rfl, rfl, rfl, rfl⟩

/-- C3, amended.  CreateEntity and UpdateEntity discard the marshal-step
error entirely: their outcome depends only on the marshalled bytes, never
on the marshal error, so the error a caller receives always comes from the
transport step (and is nil on a 200 status). -/
theorem C3_amended (m m2 : Entity → String × Option String)
    (client : WitClient) (t : Transport) (e : Entity)
    (h : (m e).1 = (m2 e).1) :
    createEntityCore m client t e = createEntityCore m2 client t e ∧
    updateEntityCore m client t e = updateEntityCore m2 client t e := by
  rcases hm : m e with ⟨d, merr⟩
  rcases hm2 : m2 e with ⟨d2, merr2⟩
  rw [hm, hm2] at h
  subst h
  constructor <;> simp [createEntityCore, updateEntityCore, hm, hm2]

/-- C3, witness for the amended theorem: a failing and a silent marshal
step with the same bytes give identical results. -/
theorem C3_amended_witness :
    createEntityCore marshalBoom ⟨"base"⟩ t500 entFav =
      createEntityCore marshalSilent ⟨"base"⟩ t500 entFav ∧
    updateEntityCore marshalBoom ⟨"base"⟩ t500 entFav =
      updateEntityCore marshalSilent ⟨"base"⟩ t500 entFav :=
  C3_amended marshalBoom marshalSilent ⟨"base"⟩ t500 entFav rfl

/-- C4, counterexample.  The claim says the trailing segment of the
DeleteEntityValueExp path is the percent-encoding of the expression.  The
code uses `url.QueryEscape`, which encodes the space as `+` where
percent-encoding writes `%20`: with the expression `" "` the issued
request differs from the percent-encoded path the claim prescribes. -/
theorem C4_counterexample :
    (WitClient.DeleteEntityValueExp ⟨""⟩ t500 "favorite_city" "Paris" " ").requests ≠
      [⟨Method.DELETE, "" ++ "/entities/" ++ "favorite_city" ++ "/values/"
        ++ "Paris" ++ "/expression/" ++ percentEncode " ", none⟩] := by
  decide

/-- C4, amended.  DeleteEntityValueExp issues one DELETE whose resource
path is `/entities/{id}/values/{value}/expression/{e}` (singular
`expression` segment) where `{e}` is Go's query-escaping of the
expression: every byte outside the unreserved set is percent-encoded
except that the space becomes `+`; on the empty expression the escape is
empty, so the path ends in `expression/`. -/
theorem C4_amended (client : WitClient) (t : Transport)
    (id value exp : String) :
    (WitClient.DeleteEntityValueExp client t id value exp).requests =
      [⟨Method.DELETE, client.ApiBase ++ "/entities/" ++ id ++ "/values/"
        ++ value ++ "/expression/" ++ queryEscape exp, none⟩] ∧
    queryEscape "" = "" :=
  ⟨DeleteEntityValueExp_requests client t id value exp, by decide⟩

/-- C5.  CreateEntityValueExp sends exactly one POST, to the base URL
followed by `/entities/{id}/values/{value}/expressions`, whose request
body is the raw expression string byte-for-byte; it is not JSON-quoted,
as the rendered JSON string of `Paella` differs from the raw bytes. -/
theorem C5_raw_expression_post (client : WitClient) (t : Transport)
    (id value exp : String) :
    (WitClient.CreateEntityValueExp client t id value exp).requests =
      [⟨Method.POST, client.ApiBase ++ "/entities/" ++ id ++ "/values/"
        ++ value ++ "/expressions", some exp⟩] ∧
    renderString "Paella" ≠ "Paella" :=
  ⟨CreateEntityValueExp_requests client t id value exp, by decide⟩

/-- C6.  When the transport GET completes with a nil error and a body that
is a well-formed JSON array of strings, `Entities` returns exactly that
sequence of strings in order. -/
theorem C6_list_entities (client : WitClient) (t : Transport)
    (ss : List String)
    (hb : (t.get (client.ApiBase ++ "/entities")).body =
      Body.json (Json.arr (ss.map Json.str)))
    (he : (t.get (client.ApiBase ++ "/entities")).err = none) :
    (WitClient.Entities client t).value = some ss := by
  simp only [WitClient.Entities, he, hb, parseEntities, unmarshalEntities,
    decodeStringList_map]

/-- C6, witness: the body `["wit$temperature","favorite_city"]` yields
exactly that ordered sequence. -/
theorem C6_witness :
    (WitClient.Entities ⟨""⟩ tTwoEntities).value =
      some ["wit$temperature", "favorite_city"] :=
  C6_list_entities ⟨""⟩ tTwoEntities ["wit$temperature", "favorite_city"]
    rfl rfl

/-- C7.  Serializing an Entity with the client's marshalling (the JSON
document `json.Marshal` emits, with keys `builtin`, `doc`, `id`, `Values`)
and deserializing it with the client's entity parser recovers the entity
exactly — all four fields round-trip. -/
theorem C7_roundtrip (e : Entity) :
    parseEntity (Body.json (entityToJson e)) = (some e, none) := by
  cases e with
  | mk b d i vs =>
    simp [parseEntity, unmarshalEntity, entityToJson, decodeEntityJson,
      decodeFields, applyEF_builtin, applyEF_doc, applyEF_id, applyEF_values,
      decodeEntityValues_map, zeroEntity]

/-- C8.  CreateEntity and UpdateEntity leave the input entity unchanged —
the final value of the pointed-to struct equals the initial one for every
transport outcome — and their only successful output is the transport's
response byte slice (otherwise nil). -/
theorem C8_no_mutation (client : WitClient) (t : Transport) (e : Entity) :
    (WitClient.CreateEntity client t e).2 = e ∧
    (WitClient.UpdateEntity client t e).2 = e ∧
    ((WitClient.CreateEntity client t e).1.value = none ∨
      (WitClient.CreateEntity client t e).1.value =
        some (t.post (client.ApiBase ++ "/entities") (renderEntity e)).body) ∧
    ((WitClient.UpdateEntity client t e).1.value = none ∨
      (WitClient.UpdateEntity client t e).1.value =
        some (t.put (client.ApiBase ++ "/entities/" ++ e.Id)
          (renderEntity e)).body) := by
  refine ⟨?_, ?_, ?_, ?_⟩
  · simp only [WitClient.CreateEntity, createEntityCore, jsonMarshalEntity]
    split <;> rfl
  · simp only [WitClient.UpdateEntity, updateEntityCore, jsonMarshalEntity]
    split <;> rfl
  · simp only [WitClient.CreateEntity, createEntityCore, jsonMarshalEntity]
    split
    · exact Or.inl rfl
    · exact Or.inr rfl
  · simp only [WitClient.UpdateEntity, updateEntityCore, jsonMarshalEntity]
    split
    · exact Or.inl rfl
    · exact Or.inr rfl

/-- C9.  Whenever the transport GET returns a nil error, `Entities` and
`Entity` return a nil error regardless of the status code and of the body
content, and their returned value is exactly the parser's value on that
body — so on a body whose parse yields no value they return a nil result
together with the nil error, and an error-checking caller receives an
unusable nil object. -/
theorem C9_swallowed_errors (client : WitClient) (t : Transport)
    (id : String)
    (hg : (t.get (client.ApiBase ++ "/entities")).err = none)
    (he : (t.get (client.ApiBase ++ "/entities/" ++ id)).err = none) :
    (WitClient.Entities client t).err = none ∧
    (WitClient.Entity client t id).err = none ∧
    (WitClient.Entities client t).value =
      (parseEntities (t.get (client.ApiBase ++ "/entities")).body).1 ∧
    (WitClient.Entity client t id).value =
      (parseEntity (t.get (client.ApiBase ++ "/entities/" ++ id)).body).1 := by
  rcases hpe1 : parseEntities (t.get (client.ApiBase ++ "/entities")).body
    with ⟨v1, p1⟩
  rcases hpe2 : parseEntity (t.get (client.ApiBase ++ "/entities/" ++ id)).body
    with ⟨v2, p2⟩
  simp [WitClient.Entities, WitClient.Entity, hg, he, hpe1, hpe2]

/-- C9, witness at a transport answering 200, nil error, and a well-formed
JSON body of the wrong shape (a bare number), which the parsers reject:
both operations return a nil value together with the nil error. -/
theorem C9_witness :
    (WitClient.Entities ⟨"base"⟩ tBadShape).err = none ∧
    (WitClient.Entity ⟨"base"⟩ tBadShape "wit$temperature").err = none ∧
    (WitClient.Entities ⟨"base"⟩ tBadShape).value = none ∧
    (WitClient.Entity ⟨"base"⟩ tBadShape "wit$temperature").value = none :=
  C9_swallowed_errors ⟨"base"⟩ tBadShape "wit$temperature" rfl rfl

/-- C10.  No operation rejects empty string arguments: the resource is
built by plain string concatenation and the request is issued for every
input.  In particular DeleteEntity with the empty id issues a DELETE for
the bare `/entities/` path, and CreateEntityValue with the empty id posts
to `/entities//values`. -/
theorem C10_total_string_paths (client : WitClient) (t : Transport)
    (id value : String) (ev : EntityValue) :
    (WitClient.DeleteEntity client t id).requests =
      [⟨Method.DELETE, client.ApiBase ++ "/entities/" ++ id, none⟩] ∧
    (WitClient.DeleteEntity client t "").requests =
      [⟨Method.DELETE, client.ApiBase ++ "/entities/", none⟩] ∧
    (WitClient.CreateEntityValue client t "" ev).requests =
      [⟨Method.POST, client.ApiBase ++ "/entities//values",
        some (renderEntityValue ev)⟩] ∧
    (WitClient.DeleteEntityValue client t id value).requests =
      [⟨Method.DELETE, client.ApiBase ++ "/entities/" ++ id ++ "/values/"
        ++ value, none⟩] := by
  refine ⟨DeleteEntity_requests client t id, ?_, ?_,
    DeleteEntityValue_requests client t id value⟩
  · rw [DeleteEntity_requests, String.append_empty]
  · rw [CreateEntityValue_requests, String.append_empty, String.append_assoc,
      show ("/entities/" ++ "/values" : String) = "/entities//values" by decide]
